import Mathlib

/-!
Verification development for the `mmo-services` realtime chat / server-registry
services.  The definitions below are a shallow embedding of `chat-server.py`
(the socket.io chat relay: connection list, room map, identity registry and
message router) and `master-server.py` (the game-server registry).  Python
dicts are embedded as functions into `Option` (for the chat registries) or as
association lists (for the master registry, whose handlers iterate over the
dict).  The socket.io library semantics the handlers rely on are embedded
explicitly: each connected sid owns a personal room named by the sid itself,
`emit(..., room=r)` delivers to the members of room `r`, a plain `emit`
broadcasts to every connected client, and a disconnect removes the sid from
every room (dropping rooms that become empty) after the application-level
disconnect handler has run.
-/

namespace Chat

/-- The identity triple stored by the `register` handler in `sid_to_identity`. -/
structure Identity where
  player_id : String
  character_id : String
  character_name : String
deriving DecidableEq

/-- Payload of a `register` event; `none` models a missing field
(the handler reads the fields with `data.get(...) or ""`). -/
structure RegisterData where
  player_id : Option String
  character_id : Option String
  character_name : Option String
deriving DecidableEq

/-- Sender fields attached to outgoing chat payloads (`make_sender_payload`). -/
structure SenderPayload where
  player_id : String
  character_id : String
  character_name : String
deriving DecidableEq

/-- Outgoing event payloads emitted by the chat handlers. -/
inductive Out where
  | usersCount (n : Nat)
  | registerError
  | globalMsg (sender : SenderPayload) (msg : String)
  | localMsg (sender : SenderPayload) (msg : String)
  | privMsg (sender : SenderPayload) (to_character_id : String) (msg : String)
      (error : Option String)
deriving DecidableEq

/-- One delivered event: target sid paired with the payload it receives. -/
abbrev Delivery := String × Out

/-- The chat server's mutable state: the module-level dicts of
`chat-server.py` plus the socket.io manager's room map. -/
structure ChatState where
  clients : List String
  user_rooms : String → Option String
  sid_to_identity : String → Option Identity
  character_to_sid : String → Option String
  rooms : String → Option (List String)

/-- The state at process start: no clients, all dicts empty. -/
def initState : ChatState :=
  ⟨[], fun _ => none, fun _ => none, fun _ => none, fun _ => none⟩

/-- Dict update `f[k] = v`. -/
def mapInsert (f : String → Option α) (k : String) (v : α) : String → Option α :=
  fun k' => if k' = k then some v else f k'

/-- Dict removal `f.pop(k, None)`. -/
def mapErase (f : String → Option α) (k : String) : String → Option α :=
  fun k' => if k' = k then none else f k'

/-- socket.io `enter_room(sid, room)`: add `sid` to the member list of `room`
(creating the room if needed; a no-op if `sid` is already a member). -/
def addMember (rooms : String → Option (List String)) (room sid : String) :
    String → Option (List String) :=
  fun r =>
    if r = room then
      match rooms room with
      | some ms => if sid ∈ ms then some ms else some (ms ++ [sid])
      | none => some [sid]
    else rooms r

/-- socket.io manager cleanup on disconnect: remove `sid` from every room and
drop rooms that become empty. -/
def removeFromRooms (rooms : String → Option (List String)) (sid : String) :
    String → Option (List String) :=
  fun r =>
    match rooms r with
    | some ms =>
        let ms' := ms.erase sid
        if ms' = [] then none else some ms'
    | none => none

/-- Member list of a room (empty when the room does not exist). -/
def membersOf (st : ChatState) (room : String) : List String :=
  (st.rooms room).getD []

/-- `sio.emit(event, payload, room=r)`: deliver `o` to every member of `r`. -/
def emitToRoom (st : ChatState) (room : String) (o : Out) : List Delivery :=
  (membersOf st room).map (fun t => (t, o))

/-- `sio.emit(event, payload)` with no room: broadcast to every client. -/
def emitAll (st : ChatState) (o : Out) : List Delivery :=
  st.clients.map (fun t => (t, o))

/-- `make_sender_payload(sid)`: the registered identity's fields, or the
placeholder (empty ids, name "Unknown") when `sid` is unregistered. -/
def make_sender_payload (st : ChatState) (sid : String) : SenderPayload :=
  match st.sid_to_identity sid with
  | some i => ⟨i.player_id, i.character_id, i.character_name⟩
  | none => ⟨"", "", "Unknown"⟩

/-- `connect` handler: append the sid to `clients` and broadcast the user
count.  The library has already created the sid's personal room. -/
def connect (st : ChatState) (sid : String) : ChatState × List Delivery :=
  let st' : ChatState :=
    { st with
      clients := st.clients ++ [sid]
      rooms := addMember st.rooms sid sid }
  (st', emitAll st' (Out.usersCount st'.clients.length))

/-- `disconnect` handler followed by the library's room cleanup: remove the
sid from `clients`, pop `sid_to_identity[sid]`, pop
`character_to_sid[identity["character_id"]]` if an identity was present,
broadcast the new user count, then remove the sid from every room.
`user_rooms` is not touched by the handler. -/
def disconnect (st : ChatState) (sid : String) : ChatState × List Delivery :=
  let clients' := if sid ∈ st.clients then st.clients.erase sid else st.clients
  let index' :=
    match st.sid_to_identity sid with
    | some i => mapErase st.character_to_sid i.character_id
    | none => st.character_to_sid
  let devs := st.clients.map (fun t => (t, Out.usersCount clients'.length))
  ({ st with
      clients := clients'
      sid_to_identity := mapErase st.sid_to_identity sid
      character_to_sid := index'
      rooms := removeFromRooms st.rooms sid }, devs)

/-- Python `str.strip()`: drop whitespace from both ends (executable over the
underlying character list so that concrete states evaluate in the kernel). -/
def pyStrip (s : String) : String :=
  ⟨((s.data.dropWhile Char.isWhitespace).reverse.dropWhile Char.isWhitespace).reverse⟩

/-- Python `(data.get(k) or "").strip()`. -/
def strip (s : Option String) : String := pyStrip (s.getD "")

/-- The `register` handler's validation test: all three fields non-empty
after trimming. -/
def validB (d : RegisterData) : Bool :=
  !(strip d.player_id == "") && !(strip d.character_id == "") &&
    !(strip d.character_name == "")

/-- The eviction step inside `register`: if `character_to_sid[character_id]`
names a different (truthy) sid, `await sio.disconnect(old_sid)` — which runs
the full disconnect sequence when `old_sid` is still connected and is a
no-op otherwise (the `try`/`except` around the call). -/
def evict (st : ChatState) (sid character_id : String) :
    ChatState × List Delivery :=
  match st.character_to_sid character_id with
  | some old_sid =>
      if old_sid ≠ "" ∧ old_sid ≠ sid then
        if old_sid ∈ st.clients then disconnect st old_sid else (st, [])
      else (st, [])
  | none => (st, [])

/-- `register` handler: validate the trimmed fields (on failure emit the
error payload to the room named by the sender's sid and change nothing),
evict any different holder of the character_id, then install
`sid_to_identity[sid]` and `character_to_sid[character_id]`. -/
def register (st : ChatState) (sid : String) (d : RegisterData) :
    ChatState × List Delivery :=
  if validB d then
    let character_id := strip d.character_id
    let ev := evict st sid character_id
    let identity : Identity := ⟨strip d.player_id, character_id, strip d.character_name⟩
    ({ ev.1 with
        sid_to_identity := mapInsert ev.1.sid_to_identity sid identity
        character_to_sid := mapInsert ev.1.character_to_sid character_id sid },
      ev.2)
  else
    (st, emitToRoom st sid Out.registerError)

/-- `enter_local` handler: `sio.enter_room(sid, room)` then
`user_rooms[sid] = room`.  The previous room is never left. -/
def enter_local (st : ChatState) (sid room : String) :
    ChatState × List Delivery :=
  ({ st with
      rooms := addMember st.rooms room sid
      user_rooms := mapInsert st.user_rooms sid room }, [])

/-- `leave_local` handler: the body reads the unbound name `room` (it never
extracts it from `msg`), so every invocation raises `NameError` before any
state is touched; python-socketio logs the exception and keeps running. -/
def leave_local (_st : ChatState) (_sid : String) (_msg : String) :
    Except String (ChatState × List Delivery) :=
  Except.error "NameError: name room is not defined"

/-- `globalmsg` handler: broadcast the sender payload and text to everyone. -/
def globalmsg (st : ChatState) (sid msg : String) : ChatState × List Delivery :=
  (st, emitAll st (Out.globalMsg (make_sender_payload st sid) msg))

/-- `localmsg` handler: if the sender has a current room in `user_rooms`,
emit to that room; otherwise the message is ignored (no delivery, no error). -/
def localmsg (st : ChatState) (sid msg : String) : ChatState × List Delivery :=
  match st.user_rooms sid with
  | some room => (st, emitToRoom st room (Out.localMsg (make_sender_payload st sid) msg))
  | none => (st, [])

/-- `privatemsg` handler: resolve the trimmed target character_id through
`character_to_sid`; if the result is truthy and present as a key of the
manager's room dict, emit the message to the room named by the receiver sid,
otherwise emit the `recipient_not_online` payload to the room named by the
sender's sid. -/
def privatemsg (st : ChatState) (sid : String) (to_character_id : Option String)
    (msg : String) : ChatState × List Delivery :=
  let sender := make_sender_payload st sid
  let toC := pyStrip (to_character_id.getD "")
  match st.character_to_sid toC with
  | some receiver_sid =>
      if receiver_sid ≠ "" ∧ (st.rooms receiver_sid).isSome then
        (st, emitToRoom st receiver_sid (Out.privMsg sender toC msg none))
      else
        (st, emitToRoom st sid (Out.privMsg sender toC msg (some "recipient_not_online")))
  | none =>
      (st, emitToRoom st sid (Out.privMsg sender toC msg (some "recipient_not_online")))

/-- The logical events driving the chat server. -/
inductive Event where
  | connect (sid : String)
  | disconnectEv (sid : String)
  | register (sid : String) (d : RegisterData)
  | enterLocal (sid room : String)
  | leaveLocal (sid msg : String)
  | localMsg (sid msg : String)
  | privateMsg (sid : String) (to_character_id : Option String) (msg : String)
  | globalMsg (sid msg : String)

/-- State transition of one event (deliveries dropped).  A `leaveLocal`
event leaves the state unchanged: the handler raises `NameError` before any
mutation and the library absorbs the exception. -/
def step (st : ChatState) : Event → ChatState
  | .connect sid => (connect st sid).1
  | .disconnectEv sid => (disconnect st sid).1
  | .register sid d => (register st sid d).1
  | .enterLocal sid room => (enter_local st sid room).1
  | .leaveLocal _ _ => st
  | .localMsg sid msg => (localmsg st sid msg).1
  | .privateMsg sid toC msg => (privatemsg st sid toC msg).1
  | .globalMsg sid msg => (globalmsg st sid msg).1

/-- Transport-layer guard for an event: message events only fire for
connected sids, and the library hands a fresh non-empty sid to `connect`. -/
def guardB (st : ChatState) : Event → Bool
  | .connect sid => decide (sid ∉ st.clients) && decide (sid ≠ "")
  | .disconnectEv sid => decide (sid ∈ st.clients)
  | .register sid _ => decide (sid ∈ st.clients)
  | .enterLocal sid _ => decide (sid ∈ st.clients)
  | .leaveLocal sid _ => decide (sid ∈ st.clients)
  | .localMsg sid _ => decide (sid ∈ st.clients)
  | .privateMsg sid _ _ => decide (sid ∈ st.clients)
  | .globalMsg sid _ => decide (sid ∈ st.clients)

/-- States reachable from process start by any finite event sequence. -/
inductive Reach : ChatState → Prop where
  | init : Reach initState
  | next (st : ChatState) (e : Event) (h : Reach st) (hg : guardB st e = true) :
      Reach (step st e)

/-- Restriction used by the amended C1 invariant: a (valid) `register` event
never changes the character_id of a session that already has an identity. -/
def sameCharB (st : ChatState) : Event → Bool
  | .register sid d =>
      match st.sid_to_identity sid with
      | some i => !validB d || (i.character_id == strip d.character_id)
      | none => true
  | _ => true

/-- States reachable when no session ever re-registers under a different
character_id. -/
inductive ReachS : ChatState → Prop where
  | init : ReachS initState
  | next (st : ChatState) (e : Event) (h : ReachS st) (hg : guardB st e = true)
      (hs : sameCharB st e = true) : ReachS (step st e)

/-- Structural invariants of the chat state, preserved by every event:
the client list is duplicate-free and holds non-empty sids, index values are
non-empty, only live sessions carry identities, a live session's current
character_id is indexed back to it, every live session sits in its personal
room, and member lists are duplicate-free. -/
structure Good (st : ChatState) : Prop where
  nodup : st.clients.Nodup
  ne : ∀ s ∈ st.clients, s ≠ ""
  idxNe : ∀ c r, st.character_to_sid c = some r → r ≠ ""
  identNone : ∀ s, s ∉ st.clients → st.sid_to_identity s = none
  fullInv : ∀ s i, s ∈ st.clients → st.sid_to_identity s = some i →
      st.character_to_sid i.character_id = some s
  personal : ∀ s ∈ st.clients, ∃ ms, st.rooms s = some ms ∧ s ∈ ms
  roomsNodup : ∀ r ms, st.rooms r = some ms → ms.Nodup

/-- The IdentityIndex invariant of the restricted system: every entry points
to a live session whose current identity carries that character_id. -/
def IdxOK (st : ChatState) : Prop :=
  ∀ c r, st.character_to_sid c = some r →
    r ∈ st.clients ∧ ∃ i, st.sid_to_identity r = some i ∧ i.character_id = c

end Chat

namespace Master

/-- A stored game-server descriptor (`game_servers[sid]`).  `Option` fields
model dict values that may be `None`/absent in the registration payload;
`current_players` is `Option` because `update_server` stores
`data.get("current_players")` unchanged. -/
structure ServerRecord where
  server_name : Option String
  ip : Option String
  port : Option Int
  level : Option String
  current_players : Option Int
  max_players : Option Int
  sid : String
deriving DecidableEq

/-- Payload of a `register_server` event. -/
structure RegisterData where
  server_name : Option String
  ip : Option String
  port : Option Int
  mapname : Option String
  current_players : Option Int
  max_players : Option Int
deriving DecidableEq

/-- Payload of an `update_server` event. -/
structure UpdateData where
  server_id : Option String
  current_players : Option Int
deriving DecidableEq

/-- One entry of the `available_servers` reply of `get_servers`. -/
structure ServerEntry where
  server_id : String
  ip : Option String
  port : Option Int
  current_players : Option Int
  max_players : Option Int
deriving DecidableEq

/-- The `game_servers` dict, as an association list in insertion order (the
handlers iterate over `game_servers.items()`). -/
abbrev MState := List (String × ServerRecord)

/-- Dict lookup (first matching key). -/
def lookupA (g : MState) (k : String) : Option ServerRecord :=
  match g with
  | [] => none
  | (k', v) :: rest => if k' = k then some v else lookupA rest k

/-- Dict update `game_servers[k] = v`: overwrite in place, or append. -/
def insertA (g : MState) (k : String) (v : ServerRecord) : MState :=
  match g with
  | [] => [(k, v)]
  | (k', v') :: rest =>
      if k' = k then (k, v) :: rest else (k', v') :: insertA rest k v

/-- `register_server` handler: store the descriptor keyed by the sid;
`current_players` defaults to 0 when the field is absent. -/
def register_server (g : MState) (sid : String) (d : RegisterData) : MState :=
  insertA g sid
    { server_name := d.server_name
      ip := d.ip
      port := d.port
      level := d.mapname
      current_players := some (d.current_players.getD 0)
      max_players := d.max_players
      sid := sid }

/-- `update_server` handler: if `data["server_id"]` is a key of
`game_servers`, overwrite that record's `current_players` with
`data.get("current_players")`; otherwise only log. -/
def update_server (g : MState) (_sid : String) (d : UpdateData) : MState :=
  match d.server_id with
  | some k =>
      if (lookupA g k).isSome then
        g.map (fun p => if p.1 = k then (p.1, { p.2 with current_players := d.current_players }) else p)
      else g
  | none => g

/-- Python `info["current_players"] < info["max_players"]`: comparing `None`
with an int raises `TypeError`. -/
def ltOpt (a b : Option Int) : Except String Bool :=
  match a, b with
  | some x, some y => Except.ok (decide (x < y))
  | _, _ => Except.error "TypeError"

/-- The list comprehension in `get_servers`: entries for every record with a
free slot, in insertion order; a `None` player count raises `TypeError`. -/
def availableServers : MState → Except String (List ServerEntry)
  | [] => Except.ok []
  | (k, info) :: rest =>
      match ltOpt info.current_players info.max_players with
      | Except.error e => Except.error e
      | Except.ok keep =>
          match availableServers rest with
          | Except.error e => Except.error e
          | Except.ok tail =>
              if keep then
                Except.ok (⟨k, info.ip, info.port, info.current_players,
                  info.max_players⟩ :: tail)
              else
                Except.ok tail

/-- `disconnect` handler of the master server: delete the first record whose
stored sid is the disconnecting one (the loop breaks after the first hit). -/
def disconnect : MState → String → MState
  | [], _ => []
  | (k, info) :: rest, sid =>
      if info.sid = sid then rest else (k, info) :: disconnect rest sid

/-- The master-server events. -/
inductive MEvent where
  | registerServer (sid : String) (d : RegisterData)
  | updateServer (sid : String) (d : UpdateData)
  | disconnectEv (sid : String)

/-- State transition of one master-server event. -/
def mstep (g : MState) : MEvent → MState
  | .registerServer sid d => register_server g sid d
  | .updateServer sid d => update_server g sid d
  | .disconnectEv sid => disconnect g sid

/-- Master-server states reachable from the empty registry. -/
inductive MReach : MState → Prop where
  | init : MReach []
  | next (g : MState) (e : MEvent) (h : MReach g) : MReach (mstep g e)

end Master

namespace Chat

theorem mapInsert_self {α : Type} (f : String → Option α) (k : String) (v : α) :
    mapInsert f k v k = some v := by
  simp [mapInsert]

theorem mapInsert_ne {α : Type} (f : String → Option α) (k k' : String) (v : α)
    (h : k' ≠ k) : mapInsert f k v k' = f k' := by
  simp [mapInsert, h]

theorem mapErase_self {α : Type} (f : String → Option α) (k : String) :
    mapErase f k k = none := by
  simp [mapErase]

theorem mapErase_ne {α : Type} (f : String → Option α) (k k' : String)
    (h : k' ≠ k) : mapErase f k k' = f k' := by
  simp [mapErase, h]

theorem disconnect_fst_clients (st : ChatState) (s : String) :
    ((disconnect st s).1).clients =
      if s ∈ st.clients then st.clients.erase s else st.clients := rfl

theorem disconnect_fst_user_rooms (st : ChatState) (s : String) :
    ((disconnect st s).1).user_rooms = st.user_rooms := rfl

theorem disconnect_fst_identity (st : ChatState) (s : String) :
    ((disconnect st s).1).sid_to_identity = mapErase st.sid_to_identity s := rfl

theorem disconnect_fst_index (st : ChatState) (s : String) :
    ((disconnect st s).1).character_to_sid =
      match st.sid_to_identity s with
      | some i => mapErase st.character_to_sid i.character_id
      | none => st.character_to_sid := rfl

theorem disconnect_fst_rooms (st : ChatState) (s : String) :
    ((disconnect st s).1).rooms = removeFromRooms st.rooms s := rfl

theorem register_of_invalid (st : ChatState) (sid : String) (d : RegisterData)
    (h : validB d = false) :
    register st sid d = (st, emitToRoom st sid Out.registerError) := by
  simp [register, h]

theorem register_fst_of_valid (st : ChatState) (sid : String) (d : RegisterData)
    (h : validB d = true) :
    (register st sid d).1 =
      { (evict st sid (strip d.character_id)).1 with
          sid_to_identity :=
            mapInsert (evict st sid (strip d.character_id)).1.sid_to_identity sid
              ⟨strip d.player_id, strip d.character_id, strip d.character_name⟩
          character_to_sid :=
            mapInsert (evict st sid (strip d.character_id)).1.character_to_sid
              (strip d.character_id) sid } := by
  simp [register, h]

theorem evict_eq_of_none (st : ChatState) (sid c : String)
    (h : st.character_to_sid c = none) : evict st sid c = (st, []) := by
  simp only [evict, h]

theorem evict_eq_of_skip (st : ChatState) (sid c old : String)
    (h : st.character_to_sid c = some old) (h2 : ¬(old ≠ "" ∧ old ≠ sid)) :
    evict st sid c = (st, []) := by
  simp only [evict, h, if_neg h2]

theorem evict_eq_of_dead (st : ChatState) (sid c old : String)
    (h : st.character_to_sid c = some old) (h2 : old ≠ "" ∧ old ≠ sid)
    (h3 : old ∉ st.clients) : evict st sid c = (st, []) := by
  simp only [evict, h, if_pos h2, if_neg h3]

theorem evict_eq_of_live (st : ChatState) (sid c old : String)
    (h : st.character_to_sid c = some old) (h2 : old ≠ "" ∧ old ≠ sid)
    (h3 : old ∈ st.clients) : evict st sid c = disconnect st old := by
  simp only [evict, h, if_pos h2, if_pos h3]

theorem evict_spec (st : ChatState) (sid c : String) :
    (evict st sid c).1 = st ∨
    ∃ old, st.character_to_sid c = some old ∧ old ≠ "" ∧ old ≠ sid ∧
      old ∈ st.clients ∧ (evict st sid c).1 = (disconnect st old).1 := by
  cases h : st.character_to_sid c with
  | none => exact Or.inl (by rw [evict_eq_of_none st sid c h])
  | some old =>
      by_cases h2 : old ≠ "" ∧ old ≠ sid
      · by_cases h3 : old ∈ st.clients
        · exact Or.inr ⟨old, rfl, h2.1, h2.2, h3,
            by rw [evict_eq_of_live st sid c old h h2 h3]⟩
        · exact Or.inl (by rw [evict_eq_of_dead st sid c old h h2 h3])
      · exact Or.inl (by rw [evict_eq_of_skip st sid c old h h2])

theorem localmsg_fst (st : ChatState) (sid msg : String) :
    (localmsg st sid msg).1 = st := by
  unfold localmsg
  cases st.user_rooms sid <;> rfl

theorem privatemsg_fst (st : ChatState) (sid : String) (toC : Option String)
    (msg : String) : (privatemsg st sid toC msg).1 = st := by
  cases h : st.character_to_sid (pyStrip (toC.getD "")) with
  | none => simp [privatemsg, h]
  | some r =>
      simp only [privatemsg, h]
      split <;> rfl

theorem addMember_other (rooms : String → Option (List String)) (room sid r : String)
    (h : r ≠ room) : addMember rooms room sid r = rooms r := by
  simp [addMember, h]

theorem addMember_at (rooms : String → Option (List String)) (room sid : String) :
    ∃ ms, addMember rooms room sid room = some ms ∧ sid ∈ ms ∧
      (∀ t, t ∈ (rooms room).getD [] → t ∈ ms) ∧
      ((∀ ms0, rooms room = some ms0 → ms0.Nodup) → ms.Nodup) := by
  cases h : rooms room with
  | none =>
      refine ⟨[sid], by simp [addMember, h], by simp, by simp [h], by simp⟩
  | some ms0 =>
      by_cases hm : sid ∈ ms0
      · exact ⟨ms0, by simp [addMember, h, hm], hm, by simp [h], fun hn => hn ms0 rfl⟩
      · refine ⟨ms0 ++ [sid], by simp [addMember, h, hm], by simp,
          fun t ht => List.mem_append.mpr (Or.inl ht), ?_⟩
        intro hn
        rw [List.nodup_append]
        exact ⟨hn ms0 rfl, List.nodup_singleton sid, by
          intro a ha hb
          rw [List.mem_singleton] at hb
          exact hm (hb ▸ ha)⟩

theorem disconnect_fst_index_none (st : ChatState) (s : String)
    (h : st.sid_to_identity s = none) :
    ((disconnect st s).1).character_to_sid = st.character_to_sid := by
  simp only [disconnect_fst_index, h]

theorem disconnect_fst_index_some (st : ChatState) (s : String) (i : Identity)
    (h : st.sid_to_identity s = some i) :
    ((disconnect st s).1).character_to_sid =
      mapErase st.character_to_sid i.character_id := by
  simp only [disconnect_fst_index, h]

theorem good_init : Good initState := by
  constructor <;> simp [initState]

theorem good_connect (st : ChatState) (sid : String) (h : Good st)
    (hs : sid ∉ st.clients) (hne : sid ≠ "") : Good (connect st sid).1 := by
  have hcl : (connect st sid).1.clients = st.clients ++ [sid] := rfl
  have hid : (connect st sid).1.sid_to_identity = st.sid_to_identity := rfl
  have hix : (connect st sid).1.character_to_sid = st.character_to_sid := rfl
  have hrm : (connect st sid).1.rooms = addMember st.rooms sid sid := rfl
  constructor
  · rw [hcl, List.nodup_append]
    exact ⟨h.nodup, List.nodup_singleton sid,
      fun a ha hb => hs ((List.mem_singleton.mp hb) ▸ ha)⟩
  · intro t ht
    rw [hcl, List.mem_append] at ht
    rcases ht with ht | ht
    · exact h.ne t ht
    · exact (List.mem_singleton.mp ht) ▸ hne
  · rw [hix]
    exact h.idxNe
  · intro t ht
    rw [hcl] at ht
    rw [hid]
    exact h.identNone t (fun hm => ht (List.mem_append.mpr (Or.inl hm)))
  · intro t i ht hti
    rw [hcl, List.mem_append] at ht
    rw [hid] at hti
    rw [hix]
    rcases ht with ht | ht
    · exact h.fullInv t i ht hti
    · exfalso
      rw [List.mem_singleton] at ht
      subst ht
      rw [h.identNone t hs] at hti
      exact Option.noConfusion hti
  · intro t ht
    rw [hcl, List.mem_append] at ht
    rw [hrm]
    rcases ht with ht | ht
    · obtain ⟨ms, hms, htm⟩ := h.personal t ht
      by_cases hts : t = sid
      · subst hts
        obtain ⟨ms', hms', hsm', _, _⟩ := addMember_at st.rooms t t
        exact ⟨ms', hms', hsm'⟩
      · exact ⟨ms, by rw [addMember_other st.rooms sid sid t hts, hms], htm⟩
    · rw [List.mem_singleton] at ht
      subst ht
      obtain ⟨ms', hms', hsm', _, _⟩ := addMember_at st.rooms t t
      exact ⟨ms', hms', hsm'⟩
  · intro r ms hms
    rw [hrm] at hms
    by_cases hrs : r = sid
    · subst hrs
      obtain ⟨ms', hms', _, _, hnd⟩ := addMember_at st.rooms r r
      rw [hms'] at hms
      have : ms' = ms := Option.some.inj hms
      subst this
      exact hnd (fun ms0 h0 => h.roomsNodup r ms0 h0)
    · rw [addMember_other st.rooms sid sid r hrs] at hms
      exact h.roomsNodup r ms hms

theorem good_disconnect (st : ChatState) (s : String) (h : Good st) :
    Good (disconnect st s).1 := by
  have hmem : ∀ t, t ∈ ((disconnect st s).1).clients → t ≠ s ∧ t ∈ st.clients := by
    intro t ht
    rw [disconnect_fst_clients] at ht
    by_cases hs : s ∈ st.clients
    · rw [if_pos hs] at ht
      exact (h.nodup.mem_erase_iff).mp ht
    · rw [if_neg hs] at ht
      exact ⟨fun hts => hs (hts ▸ ht), ht⟩
  constructor
  · rw [disconnect_fst_clients]
    split
    · exact h.nodup.erase s
    · exact h.nodup
  · intro t ht
    exact h.ne t (hmem t ht).2
  · intro c r hc
    cases hsi : st.sid_to_identity s with
    | none =>
        rw [disconnect_fst_index_none st s hsi] at hc
        exact h.idxNe c r hc
    | some i =>
        rw [disconnect_fst_index_some st s i hsi] at hc
        by_cases hci : c = i.character_id
        · rw [hci, mapErase_self] at hc
          exact Option.noConfusion hc
        · rw [mapErase_ne _ _ _ hci] at hc
          exact h.idxNe c r hc
  · intro t ht
    rw [disconnect_fst_identity]
    by_cases hts : t = s
    · rw [hts, mapErase_self]
    · rw [mapErase_ne _ _ _ hts]
      apply h.identNone
      intro htc
      apply ht
      rw [disconnect_fst_clients]
      split
      · exact (List.mem_erase_of_ne hts).mpr htc
      · exact htc
  · intro t i ht hti
    obtain ⟨hts, htc⟩ := hmem t ht
    rw [disconnect_fst_identity, mapErase_ne _ _ _ hts] at hti
    have hidx := h.fullInv t i htc hti
    cases hsi : st.sid_to_identity s with
    | none =>
        rw [disconnect_fst_index_none st s hsi]
        exact hidx
    | some j =>
        rw [disconnect_fst_index_some st s j hsi]
        by_cases hcc : i.character_id = j.character_id
        · exfalso
          by_cases hs : s ∈ st.clients
          · have h2 := h.fullInv s j hs hsi
            rw [← hcc, hidx] at h2
            exact hts (Option.some.inj h2)
          · rw [h.identNone s hs] at hsi
            exact Option.noConfusion hsi
        · rw [mapErase_ne _ _ _ hcc]
          exact hidx
  · intro t ht
    obtain ⟨hts, htc⟩ := hmem t ht
    obtain ⟨ms, hms, htm⟩ := h.personal t htc
    rw [disconnect_fst_rooms]
    have htm' : t ∈ ms.erase s := (List.mem_erase_of_ne hts).mpr htm
    refine ⟨ms.erase s, ?_, htm'⟩
    simp only [removeFromRooms, hms]
    rw [if_neg (List.ne_nil_of_mem htm')]
  · intro r ms hms
    rw [disconnect_fst_rooms] at hms
    cases hr : st.rooms r with
    | none =>
        simp only [removeFromRooms, hr] at hms
        exact Option.noConfusion hms
    | some ms0 =>
        simp only [removeFromRooms, hr] at hms
        by_cases h0 : ms0.erase s = []
        · rw [if_pos h0] at hms
          exact Option.noConfusion hms
        · rw [if_neg h0] at hms
          have : ms0.erase s = ms := Option.some.inj hms
          subst this
          exact (h.roomsNodup r ms0 hr).erase s

theorem good_evict (st : ChatState) (sid c : String) (h : Good st) :
    Good (evict st sid c).1 := by
  rcases evict_spec st sid c with he | ⟨old, _, _, _, _, he⟩ <;> rw [he]
  · exact h
  · exact good_disconnect st old h

theorem mem_evict_clients (st : ChatState) (sid c : String)
    (hs : sid ∈ st.clients) : sid ∈ (evict st sid c).1.clients := by
  rcases evict_spec st sid c with he | ⟨old, _, _, hosid, homem, he⟩ <;> rw [he]
  · exact hs
  · rw [disconnect_fst_clients, if_pos homem]
    exact (List.mem_erase_of_ne (fun h0 => hosid h0.symm)).mpr hs

theorem evict_index_at (st : ChatState) (sid c : String) (h : Good st) :
    ∀ t, t ∈ (evict st sid c).1.clients → t ≠ sid →
      (evict st sid c).1.character_to_sid c = some t → False := by
  intro t htmem htne hidx
  rcases evict_spec st sid c with he | ⟨old, hoidx, _, _, homem, he⟩
  · rw [he] at htmem hidx
    have heq := evict_eq_of_live st sid c t hidx ⟨h.ne t htmem, htne⟩ htmem
    have he2 : (disconnect st t).1 = st := by
      rw [heq] at he
      exact he
    have hnot : t ∉ (disconnect st t).1.clients := by
      rw [disconnect_fst_clients, if_pos htmem]
      exact h.nodup.not_mem_erase
    rw [he2] at hnot
    exact hnot htmem
  · rw [he] at htmem hidx
    have hmem2 : t ≠ old ∧ t ∈ st.clients := by
      rw [disconnect_fst_clients, if_pos homem] at htmem
      exact (h.nodup.mem_erase_iff).mp htmem
    cases hsi : st.sid_to_identity old with
    | none =>
        rw [disconnect_fst_index_none st old hsi] at hidx
        rw [hoidx] at hidx
        exact hmem2.1 (Option.some.inj hidx).symm
    | some j =>
        rw [disconnect_fst_index_some st old j hsi] at hidx
        by_cases hcj : c = j.character_id
        · rw [hcj, mapErase_self] at hidx
          exact Option.noConfusion hidx
        · rw [mapErase_ne _ _ _ hcj] at hidx
          rw [hoidx] at hidx
          exact hmem2.1 (Option.some.inj hidx).symm

theorem good_register_install (st1 : ChatState) (sid : String) (i : Identity)
    (h1 : Good st1) (hsid1 : sid ∈ st1.clients)
    (hblock : ∀ t, t ∈ st1.clients → t ≠ sid →
        st1.character_to_sid i.character_id = some t → False) :
    Good { st1 with
      sid_to_identity := mapInsert st1.sid_to_identity sid i
      character_to_sid := mapInsert st1.character_to_sid i.character_id sid } := by
  refine ⟨h1.nodup, h1.ne, ?_, ?_, ?_, h1.personal, h1.roomsNodup⟩
  · intro c' r hc'
    have hc2 : mapInsert st1.character_to_sid i.character_id sid c' = some r := hc'
    by_cases hcc : c' = i.character_id
    · rw [hcc, mapInsert_self] at hc2
      exact (Option.some.inj hc2) ▸ (h1.ne sid hsid1)
    · rw [mapInsert_ne _ _ _ _ hcc] at hc2
      exact h1.idxNe c' r hc2
  · intro t ht
    have ht1 : t ∉ st1.clients := ht
    show mapInsert st1.sid_to_identity sid i t = none
    by_cases hts : t = sid
    · subst hts
      exact absurd hsid1 ht1
    · rw [mapInsert_ne _ _ _ _ hts]
      exact h1.identNone t ht1
  · intro t j ht hj
    have ht1 : t ∈ st1.clients := ht
    have hj1 : mapInsert st1.sid_to_identity sid i t = some j := hj
    show mapInsert st1.character_to_sid i.character_id sid j.character_id = some t
    by_cases hts : t = sid
    · subst hts
      rw [mapInsert_self] at hj1
      have hij : i = j := Option.some.inj hj1
      subst hij
      rw [mapInsert_self]
    · rw [mapInsert_ne _ _ _ _ hts] at hj1
      have hidx := h1.fullInv t j ht1 hj1
      by_cases hcc : j.character_id = i.character_id
      · exact absurd (hcc ▸ hidx) (fun h0 => hblock t ht1 hts h0)
      · rw [mapInsert_ne _ _ _ _ hcc]
        exact hidx

theorem good_register (st : ChatState) (sid : String) (d : RegisterData)
    (h : Good st) (hsid : sid ∈ st.clients) : Good (register st sid d).1 := by
  cases hv : validB d with
  | false =>
      have he : (register st sid d).1 = st := by
        rw [register_of_invalid st sid d hv]
      rw [he]
      exact h
  | true =>
      rw [register_fst_of_valid st sid d hv]
      exact good_register_install (evict st sid (strip d.character_id)).1 sid
        ⟨strip d.player_id, strip d.character_id, strip d.character_name⟩
        (good_evict st sid (strip d.character_id) h)
        (mem_evict_clients st sid (strip d.character_id) hsid)
        (evict_index_at st sid (strip d.character_id) h)

theorem good_enter (st : ChatState) (sid room : String) (h : Good st) :
    Good (enter_local st sid room).1 := by
  refine ⟨h.nodup, h.ne, h.idxNe, h.identNone, h.fullInv, ?_, ?_⟩
  · intro t ht
    have ht1 : t ∈ st.clients := ht
    obtain ⟨ms, hms, htm⟩ := h.personal t ht1
    by_cases htr : t = room
    · subst htr
      obtain ⟨ms', hms', _, hold, _⟩ := addMember_at st.rooms t sid
      refine ⟨ms', hms', hold t ?_⟩
      rw [hms]
      exact htm
    · refine ⟨ms, ?_, htm⟩
      show addMember st.rooms room sid t = some ms
      rw [addMember_other _ _ _ _ htr]
      exact hms
  · intro r ms hms
    have hms1 : addMember st.rooms room sid r = some ms := hms
    by_cases hrr : r = room
    · subst hrr
      obtain ⟨ms', hms', _, _, hnd⟩ := addMember_at st.rooms r sid
      rw [hms'] at hms1
      have : ms' = ms := Option.some.inj hms1
      subst this
      exact hnd (fun ms0 h0 => h.roomsNodup r ms0 h0)
    · rw [addMember_other _ _ _ _ hrr] at hms1
      exact h.roomsNodup r ms hms1

theorem good_step (st : ChatState) (e : Event) (h : Good st)
    (hg : guardB st e = true) : Good (step st e) := by
  cases e with
  | connect sid =>
      simp only [guardB, Bool.and_eq_true, decide_eq_true_eq] at hg
      exact good_connect st sid h hg.1 hg.2
  | disconnectEv sid => exact good_disconnect st sid h
  | register sid d =>
      simp only [guardB, decide_eq_true_eq] at hg
      exact good_register st sid d h hg
  | enterLocal sid room => exact good_enter st sid room h
  | leaveLocal sid msg => exact h
  | localMsg sid msg =>
      show Good (localmsg st sid msg).1
      rw [localmsg_fst]
      exact h
  | privateMsg sid toC msg =>
      show Good (privatemsg st sid toC msg).1
      rw [privatemsg_fst]
      exact h
  | globalMsg sid msg => exact h

theorem reach_good (st : ChatState) (h : Reach st) : Good st := by
  induction h with
  | init => exact good_init
  | next st e _ hg ih => exact good_step st e ih hg

theorem idxok_init : IdxOK initState := by
  intro c r hc
  simp [initState] at hc

theorem idxok_connect (st : ChatState) (sid : String) (hI : IdxOK st) :
    IdxOK (connect st sid).1 := by
  intro c r hc
  have hc1 : st.character_to_sid c = some r := hc
  obtain ⟨hrm, i, hid, hchar⟩ := hI c r hc1
  exact ⟨List.mem_append.mpr (Or.inl hrm), i, hid, hchar⟩

theorem idxok_disconnect (st : ChatState) (s : String)
    (hI : IdxOK st) (hs : s ∈ st.clients) : IdxOK (disconnect st s).1 := by
  intro c r hc
  cases hsi : st.sid_to_identity s with
  | none =>
      rw [disconnect_fst_index_none st s hsi] at hc
      obtain ⟨hrm, i, hid, hchar⟩ := hI c r hc
      have hrs : r ≠ s := by
        intro h0
        subst h0
        rw [hsi] at hid
        exact Option.noConfusion hid
      refine ⟨?_, i, ?_, hchar⟩
      · rw [disconnect_fst_clients, if_pos hs]
        exact (List.mem_erase_of_ne hrs).mpr hrm
      · rw [disconnect_fst_identity, mapErase_ne _ _ _ hrs]
        exact hid
  | some j =>
      rw [disconnect_fst_index_some st s j hsi] at hc
      by_cases hcj : c = j.character_id
      · rw [hcj, mapErase_self] at hc
        exact Option.noConfusion hc
      · rw [mapErase_ne _ _ _ hcj] at hc
        obtain ⟨hrm, i, hid, hchar⟩ := hI c r hc
        have hrs : r ≠ s := by
          intro h0
          subst h0
          rw [hsi] at hid
          have hij : j = i := Option.some.inj hid
          rw [← hij] at hchar
          exact hcj hchar.symm
        refine ⟨?_, i, ?_, hchar⟩
        · rw [disconnect_fst_clients, if_pos hs]
          exact (List.mem_erase_of_ne hrs).mpr hrm
        · rw [disconnect_fst_identity, mapErase_ne _ _ _ hrs]
          exact hid

theorem evict_index_sub (st : ChatState) (sid c : String) :
    ∀ c' r, (evict st sid c).1.character_to_sid c' = some r →
      st.character_to_sid c' = some r := by
  intro c' r hc
  rcases evict_spec st sid c with he | ⟨old, _, _, _, _, he⟩
  · rw [he] at hc
    exact hc
  · rw [he] at hc
    cases hsi : st.sid_to_identity old with
    | none =>
        rw [disconnect_fst_index_none st old hsi] at hc
        exact hc
    | some j =>
        rw [disconnect_fst_index_some st old j hsi] at hc
        by_cases hcj : c' = j.character_id
        · rw [hcj, mapErase_self] at hc
          exact Option.noConfusion hc
        · rw [mapErase_ne _ _ _ hcj] at hc
          exact hc

theorem idxok_evict (st : ChatState) (sid c : String)
    (hI : IdxOK st) : IdxOK (evict st sid c).1 := by
  rcases evict_spec st sid c with he | ⟨old, _, _, _, homem, he⟩ <;> rw [he]
  · exact hI
  · exact idxok_disconnect st old hI homem

theorem idxok_install (st1 : ChatState) (sid : String) (i : Identity)
    (h1 : IdxOK st1) (hsid1 : sid ∈ st1.clients)
    (hnoc : ∀ c' r, c' ≠ i.character_id → st1.character_to_sid c' = some r →
        r ≠ sid) :
    IdxOK { st1 with
      sid_to_identity := mapInsert st1.sid_to_identity sid i
      character_to_sid := mapInsert st1.character_to_sid i.character_id sid } := by
  intro c' r hc'
  have hc2 : mapInsert st1.character_to_sid i.character_id sid c' = some r := hc'
  by_cases hcc : c' = i.character_id
  · subst hcc
    rw [mapInsert_self] at hc2
    have hsr : sid = r := Option.some.inj hc2
    subst hsr
    refine ⟨hsid1, i, ?_, rfl⟩
    show mapInsert st1.sid_to_identity sid i sid = some i
    rw [mapInsert_self]
  · rw [mapInsert_ne _ _ _ _ hcc] at hc2
    obtain ⟨hrm, i0, hid0, hchar0⟩ := h1 c' r hc2
    have hrs : r ≠ sid := hnoc c' r hcc hc2
    refine ⟨hrm, i0, ?_, hchar0⟩
    show mapInsert st1.sid_to_identity sid i r = some i0
    rw [mapInsert_ne _ _ _ _ hrs]
    exact hid0

theorem idxok_register (st : ChatState) (sid : String) (d : RegisterData)
    (hI : IdxOK st) (hsid : sid ∈ st.clients)
    (hsame : sameCharB st (.register sid d) = true) :
    IdxOK (register st sid d).1 := by
  cases hv : validB d with
  | false =>
      have he : (register st sid d).1 = st := by
        rw [register_of_invalid st sid d hv]
      rw [he]
      exact hI
  | true =>
      have hsame' : ∀ i0, st.sid_to_identity sid = some i0 →
          i0.character_id = strip d.character_id := by
        intro i0 h0
        simp only [sameCharB, h0, hv, Bool.not_true, Bool.false_or,
          beq_iff_eq] at hsame
        exact hsame
      rw [register_fst_of_valid st sid d hv]
      apply idxok_install
      · exact idxok_evict st sid (strip d.character_id) hI
      · exact mem_evict_clients st sid (strip d.character_id) hsid
      · intro c' r hcc hc h0
        have hst := evict_index_sub st sid (strip d.character_id) c' r hc
        obtain ⟨_, i0, hid0, hchar0⟩ := hI c' r hst
        rw [h0] at hid0
        exact hcc (hchar0.symm.trans (hsame' i0 hid0))

theorem idxok_step (st : ChatState) (e : Event) (hI : IdxOK st)
    (hg : guardB st e = true) (hs : sameCharB st e = true) :
    IdxOK (step st e) := by
  cases e with
  | connect sid => exact idxok_connect st sid hI
  | disconnectEv sid =>
      simp only [guardB, decide_eq_true_eq] at hg
      exact idxok_disconnect st sid hI hg
  | register sid d =>
      simp only [guardB, decide_eq_true_eq] at hg
      exact idxok_register st sid d hI hg hs
  | enterLocal sid room =>
      intro c r hc
      have hc1 : st.character_to_sid c = some r := hc
      obtain ⟨hrm, i, hid, hchar⟩ := hI c r hc1
      exact ⟨hrm, i, hid, hchar⟩
  | leaveLocal sid msg => exact hI
  | localMsg sid msg =>
      show IdxOK (localmsg st sid msg).1
      rw [localmsg_fst]
      exact hI
  | privateMsg sid toC msg =>
      show IdxOK (privatemsg st sid toC msg).1
      rw [privatemsg_fst]
      exact hI
  | globalMsg sid msg => exact hI

theorem reachS_reach (st : ChatState) (h : ReachS st) : Reach st := by
  induction h with
  | init => exact Reach.init
  | next st e _ hg _ ih => exact Reach.next st e ih hg

theorem reachS_idxok (st : ChatState) (h : ReachS st) : IdxOK st := by
  induction h with
  | init => exact idxok_init
  | next st e _ hg hs ih =>
      exact idxok_step st e ih hg hs

end Chat

namespace Master

/-- Key list of the registry, in insertion order. -/
def keys (g : MState) : List String := g.map Prod.fst

/-- Every key of the registry equals the sid stored inside its record. -/
def OwnKeys (g : MState) : Prop := ∀ p ∈ g, p.1 = p.2.sid

theorem keys_nil : keys [] = [] := rfl

theorem keys_cons (p : String × ServerRecord) (rest : MState) :
    keys (p :: rest) = p.1 :: keys rest := rfl

theorem lookupA_insertA_self (g : MState) (k : String) (v : ServerRecord) :
    lookupA (insertA g k v) k = some v := by
  induction g with
  | nil => simp [insertA, lookupA]
  | cons p rest ih =>
      obtain ⟨k', v'⟩ := p
      by_cases h : k' = k
      · simp [insertA, h, lookupA]
      · simp [insertA, h, lookupA, ih]

theorem mem_keys_insertA (g : MState) (k : String) (v : ServerRecord)
    (a : String) : a ∈ keys (insertA g k v) ↔ a ∈ keys g ∨ a = k := by
  induction g with
  | nil => simp [insertA, keys]
  | cons p rest ih =>
      obtain ⟨k', v'⟩ := p
      by_cases h : k' = k
      · subst h
        rw [show insertA ((k', v') :: rest) k' v = (k', v) :: rest from by
          simp [insertA]]
        simp only [keys_cons, List.mem_cons]
        tauto
      · rw [show insertA ((k', v') :: rest) k v = (k', v') :: insertA rest k v from by
          simp [insertA, h]]
        simp only [keys_cons, List.mem_cons, ih]
        tauto

theorem keys_nodup_insertA (g : MState) (k : String) (v : ServerRecord)
    (h : (keys g).Nodup) : (keys (insertA g k v)).Nodup := by
  induction g with
  | nil => simp [insertA, keys]
  | cons p rest ih =>
      obtain ⟨k', v'⟩ := p
      rw [keys_cons, List.nodup_cons] at h
      by_cases hk : k' = k
      · subst hk
        rw [show insertA ((k', v') :: rest) k' v = (k', v) :: rest from by
          simp [insertA]]
        rw [keys_cons, List.nodup_cons]
        exact h
      · rw [show insertA ((k', v') :: rest) k v = (k', v') :: insertA rest k v from by
          simp [insertA, hk]]
        rw [keys_cons, List.nodup_cons]
        refine ⟨?_, ih h.2⟩
        intro hmem
        rcases (mem_keys_insertA rest k v k').mp hmem with h1 | h1
        · exact h.1 h1
        · exact hk h1

theorem lookupA_map_upd (g : MState) (k : String) (cp : Option Int) :
    lookupA (g.map (fun p =>
        if p.1 = k then (p.1, { p.2 with current_players := cp }) else p)) k =
      (lookupA g k).map (fun v => { v with current_players := cp }) := by
  induction g with
  | nil => rfl
  | cons p rest ih =>
      obtain ⟨k', v'⟩ := p
      by_cases h : k' = k
      · subst h
        rw [List.map_cons,
          if_pos (show ((k', v') : String × ServerRecord).1 = k' from rfl)]
        simp [lookupA]
      · rw [List.map_cons,
          if_neg (show ¬((k', v') : String × ServerRecord).1 = k from h)]
        simp [lookupA, h, ih]

theorem keys_map_upd (g : MState) (k : String) (cp : Option Int) :
    keys (g.map (fun p =>
        if p.1 = k then (p.1, { p.2 with current_players := cp }) else p)) =
      keys g := by
  simp only [keys, List.map_map]
  apply List.map_congr_left
  intro p _
  by_cases h : p.1 = k <;> simp [h]

theorem ownkeys_map_upd (g : MState) (k : String) (cp : Option Int)
    (h : OwnKeys g) : OwnKeys (g.map (fun p =>
      if p.1 = k then (p.1, { p.2 with current_players := cp }) else p)) := by
  intro p hp
  obtain ⟨q, hq, hpq⟩ := List.mem_map.mp hp
  subst hpq
  by_cases hqk : q.1 = k
  · simp only [if_pos hqk]
    exact h q hq
  · simp only [if_neg hqk]
    exact h q hq

theorem update_server_eq_of_some (g : MState) (s k : String) (d : UpdateData)
    (hk : d.server_id = some k) (hs : (lookupA g k).isSome = true) :
    update_server g s d = g.map (fun p =>
      if p.1 = k then (p.1, { p.2 with current_players := d.current_players })
      else p) := by
  simp only [update_server, hk, if_pos hs]

theorem availableServers_mem (g : MState) (l : List ServerEntry)
    (h : availableServers g = Except.ok l) :
    ∀ e ∈ l, ∃ r, (e.server_id, r) ∈ g ∧
      ltOpt r.current_players r.max_players = Except.ok true := by
  induction g generalizing l with
  | nil =>
      intro e he
      simp only [availableServers] at h
      have : l = [] := (Except.ok.inj h).symm
      subst this
      exact absurd he (List.not_mem_nil e)
  | cons p rest ih =>
      obtain ⟨k, info⟩ := p
      intro e he
      simp only [availableServers] at h
      cases hk : ltOpt info.current_players info.max_players with
      | error err =>
          simp only [hk] at h
          exact Except.noConfusion h
      | ok keep =>
          simp only [hk] at h
          cases ht : availableServers rest with
          | error err =>
              simp only [ht] at h
              exact Except.noConfusion h
          | ok tail =>
              simp only [ht] at h
              cases keep with
              | false =>
                  rw [if_neg (by simp)] at h
                  have : tail = l := Except.ok.inj h
                  subst this
                  obtain ⟨r, hr, hlt⟩ := ih tail ht e he
                  exact ⟨r, List.mem_cons_of_mem _ hr, hlt⟩
              | true =>
                  rw [if_pos rfl] at h
                  have hl : (⟨k, info.ip, info.port, info.current_players,
                      info.max_players⟩ : ServerEntry) :: tail = l := Except.ok.inj h
                  subst hl
                  rcases List.mem_cons.mp he with h1 | h1
                  · subst h1
                    exact ⟨info, List.mem_cons_self _ _, by rw [hk]⟩
                  · obtain ⟨r, hr, hlt⟩ := ih tail ht e h1
                    exact ⟨r, List.mem_cons_of_mem _ hr, hlt⟩

theorem lookupA_eq_of_mem (g : MState) (k : String) (r : ServerRecord)
    (hnd : (keys g).Nodup) (h : (k, r) ∈ g) : lookupA g k = some r := by
  induction g with
  | nil => exact absurd h (List.not_mem_nil _)
  | cons p rest ih =>
      obtain ⟨k', v'⟩ := p
      rw [keys_cons, List.nodup_cons] at hnd
      rcases List.mem_cons.mp h with h1 | h1
      · have hk : k = k' := congrArg Prod.fst h1
        have hv : r = v' := congrArg Prod.snd h1
        subst hk
        subst hv
        simp [lookupA]
      · have hkk : k' ≠ k := by
          intro h0
          subst h0
          exact hnd.1 (List.mem_map.mpr ⟨(k', r), h1, rfl⟩)
        rw [show lookupA ((k', v') :: rest) k = lookupA rest k from by
          simp [lookupA, hkk]]
        exact ih hnd.2 h1

theorem disconnect_sublist (g : MState) (sid : String) :
    List.Sublist (disconnect g sid) g := by
  induction g with
  | nil => simp [disconnect]
  | cons p rest ih =>
      obtain ⟨k, info⟩ := p
      simp only [disconnect]
      by_cases h : info.sid = sid
      · rw [if_pos h]
        exact List.sublist_cons_self _ _
      · rw [if_neg h]
        exact ih.cons₂ (k, info)

theorem mem_insertA (g : MState) (k : String) (v : ServerRecord)
    (p : String × ServerRecord) (hp : p ∈ insertA g k v) :
    p ∈ g ∨ p = (k, v) := by
  induction g with
  | nil =>
      simp only [insertA] at hp
      exact Or.inr (List.mem_singleton.mp hp)
  | cons q rest ih =>
      obtain ⟨k', v'⟩ := q
      simp only [insertA] at hp
      by_cases hk : k' = k
      · rw [if_pos hk] at hp
        rcases List.mem_cons.mp hp with h1 | h1
        · exact Or.inr h1
        · exact Or.inl (List.mem_cons_of_mem _ h1)
      · rw [if_neg hk] at hp
        rcases List.mem_cons.mp hp with h1 | h1
        · exact Or.inl (by rw [h1]; exact List.mem_cons_self _ _)
        · rcases ih h1 with h2 | h2
          · exact Or.inl (List.mem_cons_of_mem _ h2)
          · exact Or.inr h2

theorem update_server_cases (g : MState) (s : String) (d : UpdateData) :
    update_server g s d = g ∨
    ∃ k, d.server_id = some k ∧ (lookupA g k).isSome = true ∧
      update_server g s d = g.map (fun p =>
        if p.1 = k then (p.1, { p.2 with current_players := d.current_players })
        else p) := by
  cases hsk : d.server_id with
  | none => exact Or.inl (by simp [update_server, hsk])
  | some k =>
      by_cases hs : (lookupA g k).isSome = true
      · exact Or.inr ⟨k, rfl, hs, update_server_eq_of_some g s k d hsk hs⟩
      · refine Or.inl ?_
        simp [update_server, hsk, hs]

theorem mreach_good (g : MState) (h : MReach g) :
    OwnKeys g ∧ (keys g).Nodup := by
  induction h with
  | init => exact ⟨fun p hp => absurd hp (List.not_mem_nil p), by simp [keys]⟩
  | next g e _ ih =>
      obtain ⟨hown, hnd⟩ := ih
      cases e with
      | registerServer sid d =>
          refine ⟨?_, keys_nodup_insertA g sid _ hnd⟩
          intro p hp
          rcases mem_insertA g sid _ p hp with h1 | h1
          · exact hown p h1
          · rw [h1]
      | updateServer sid d =>
          show OwnKeys (update_server g sid d) ∧ (keys (update_server g sid d)).Nodup
          rcases update_server_cases g sid d with he | ⟨k, _, _, he⟩
          · rw [he]
            exact ⟨hown, hnd⟩
          · rw [he]
            refine ⟨ownkeys_map_upd g k d.current_players hown, ?_⟩
            rw [keys_map_upd]
            exact hnd
      | disconnectEv sid =>
          have hsub := disconnect_sublist g sid
          refine ⟨fun p hp => hown p (hsub.subset hp), ?_⟩
          exact List.Nodup.sublist (hsub.map Prod.fst) hnd

theorem disconnect_no_owner (sid : String) : ∀ (g : MState), OwnKeys g →
    (keys g).Nodup → ∀ p ∈ disconnect g sid, p.2.sid ≠ sid := by
  intro g
  induction g with
  | nil =>
      intro _ _ p hp
      simp [disconnect] at hp
  | cons q rest ih =>
      obtain ⟨k, info⟩ := q
      intro hown hnd p hp h0
      have hownr : OwnKeys rest := fun q hq => hown q (List.mem_cons_of_mem _ hq)
      rw [keys_cons, List.nodup_cons] at hnd
      simp only [disconnect] at hp
      by_cases h : info.sid = sid
      · rw [if_pos h] at hp
        have hk : k = info.sid := hown (k, info) (List.mem_cons_self _ _)
        have hp1 : p.1 = p.2.sid := hown p (List.mem_cons_of_mem _ hp)
        have hmem : p.1 ∈ keys rest := List.mem_map_of_mem Prod.fst hp
        have hpk : p.1 = k := by rw [hp1, h0, ← h, ← hk]
        exact hnd.1 (hpk ▸ hmem)
      · rw [if_neg h] at hp
        rcases List.mem_cons.mp hp with h1 | h1
        · apply h
          rw [h1] at h0
          exact h0
        · exact ih hownr hnd.2 p h1 h0

end Master

namespace Chat

theorem emitToRoom_eq (st : ChatState) (r : String) (ms : List String) (o : Out)
    (hms : st.rooms r = some ms) :
    emitToRoom st r o = ms.map (fun u => (u, o)) := by
  simp [emitToRoom, membersOf, hms]

theorem localmsg_none (st : ChatState) (sid m : String)
    (h : st.user_rooms sid = none) : localmsg st sid m = (st, []) := by
  simp [localmsg, h]

theorem localmsg_some (st : ChatState) (sid m room : String)
    (h : st.user_rooms sid = some room) :
    localmsg st sid m =
      (st, emitToRoom st room (Out.localMsg (make_sender_payload st sid) m)) := by
  simp [localmsg, h]

theorem privatemsg_deliver (st : ChatState) (x : String) (t : Option String)
    (m r : String) (hidx : st.character_to_sid (pyStrip (t.getD "")) = some r)
    (hr : r ≠ "") (hsome : (st.rooms r).isSome = true) :
    privatemsg st x t m =
      (st, emitToRoom st r
        (Out.privMsg (make_sender_payload st x) (pyStrip (t.getD "")) m none)) := by
  simp only [privatemsg, hidx, if_pos (And.intro hr hsome)]

theorem privatemsg_error_unresolved (st : ChatState) (x : String)
    (t : Option String) (m : String)
    (hidx : st.character_to_sid (pyStrip (t.getD "")) = none) :
    privatemsg st x t m =
      (st, emitToRoom st x
        (Out.privMsg (make_sender_payload st x) (pyStrip (t.getD "")) m
          (some "recipient_not_online"))) := by
  simp only [privatemsg, hidx]

theorem privatemsg_error_dead (st : ChatState) (x : String) (t : Option String)
    (m r : String) (hidx : st.character_to_sid (pyStrip (t.getD "")) = some r)
    (hcond : ¬(r ≠ "" ∧ (st.rooms r).isSome = true)) :
    privatemsg st x t m =
      (st, emitToRoom st x
        (Out.privMsg (make_sender_payload st x) (pyStrip (t.getD "")) m
          (some "recipient_not_online"))) := by
  simp only [privatemsg, hidx, if_neg hcond]

theorem register_index_self (st : ChatState) (sid : String) (d : RegisterData)
    (hv : validB d = true) :
    (register st sid d).1.character_to_sid (strip d.character_id) = some sid := by
  rw [register_fst_of_valid st sid d hv]
  show mapInsert (evict st sid (strip d.character_id)).1.character_to_sid
    (strip d.character_id) sid (strip d.character_id) = some sid
  rw [mapInsert_self]

theorem register_index_other (st : ChatState) (sid : String) (d : RegisterData)
    (hv : validB d = true) (c' : String) (hcc : c' ≠ strip d.character_id) :
    (register st sid d).1.character_to_sid c' =
      (evict st sid (strip d.character_id)).1.character_to_sid c' := by
  rw [register_fst_of_valid st sid d hv]
  show mapInsert (evict st sid (strip d.character_id)).1.character_to_sid
    (strip d.character_id) sid c' = _
  rw [mapInsert_ne _ _ _ _ hcc]

theorem register_identity_self (st : ChatState) (sid : String) (d : RegisterData)
    (hv : validB d = true) :
    (register st sid d).1.sid_to_identity sid =
      some ⟨strip d.player_id, strip d.character_id, strip d.character_name⟩ := by
  rw [register_fst_of_valid st sid d hv]
  show mapInsert (evict st sid (strip d.character_id)).1.sid_to_identity sid
    ⟨strip d.player_id, strip d.character_id, strip d.character_name⟩ sid = _
  rw [mapInsert_self]

theorem register_identity_other (st : ChatState) (sid : String) (d : RegisterData)
    (hv : validB d = true) (t : String) (hts : t ≠ sid) :
    (register st sid d).1.sid_to_identity t =
      (evict st sid (strip d.character_id)).1.sid_to_identity t := by
  rw [register_fst_of_valid st sid d hv]
  show mapInsert (evict st sid (strip d.character_id)).1.sid_to_identity sid
    ⟨strip d.player_id, strip d.character_id, strip d.character_name⟩ t = _
  rw [mapInsert_ne _ _ _ _ hts]

theorem register_clients (st : ChatState) (sid : String) (d : RegisterData)
    (hv : validB d = true) :
    (register st sid d).1.clients =
      (evict st sid (strip d.character_id)).1.clients := by
  rw [register_fst_of_valid st sid d hv]

theorem register_mem_clients (st : ChatState) (sid : String) (d : RegisterData)
    (hs : sid ∈ st.clients) : sid ∈ (register st sid d).1.clients := by
  cases hv : validB d with
  | false =>
      have he : (register st sid d).1 = st := by
        rw [register_of_invalid st sid d hv]
      rw [he]
      exact hs
  | true =>
      rw [register_clients st sid d hv]
      exact mem_evict_clients st sid (strip d.character_id) hs

theorem disconnect_not_mem_clients (st : ChatState) (s : String)
    (hnd : st.clients.Nodup) : s ∉ (disconnect st s).1.clients := by
  by_cases hs : s ∈ st.clients
  · rw [disconnect_fst_clients, if_pos hs]
    exact hnd.not_mem_erase
  · rw [disconnect_fst_clients, if_neg hs]
    exact hs

theorem evict_clients_nodup (st : ChatState) (sid c : String)
    (hnd : st.clients.Nodup) : (evict st sid c).1.clients.Nodup := by
  rcases evict_spec st sid c with he | ⟨old, _, _, _, _, he⟩ <;> rw [he]
  · exact hnd
  · by_cases ho : old ∈ st.clients
    · rw [disconnect_fst_clients, if_pos ho]
      exact hnd.erase old
    · rw [disconnect_fst_clients, if_neg ho]
      exact hnd

theorem register_clients_nodup (st : ChatState) (sid : String) (d : RegisterData)
    (hnd : st.clients.Nodup) : (register st sid d).1.clients.Nodup := by
  cases hv : validB d with
  | false =>
      have he : (register st sid d).1 = st := by
        rw [register_of_invalid st sid d hv]
      rw [he]
      exact hnd
  | true =>
      rw [register_clients st sid d hv]
      exact evict_clients_nodup st sid (strip d.character_id) hnd

theorem evict_index_preserved (st : ChatState) (sid c c1 : String) (h : Good st)
    (hA : st.character_to_sid c1 = some sid) :
    (evict st sid c).1.character_to_sid c1 = some sid := by
  rcases evict_spec st sid c with he | ⟨old, _, _, hosid, homem, he⟩ <;> rw [he]
  · exact hA
  · cases hsi : st.sid_to_identity old with
    | none =>
        rw [disconnect_fst_index_none st old hsi]
        exact hA
    | some j =>
        rw [disconnect_fst_index_some st old j hsi]
        have hjc : j.character_id ≠ c1 := by
          intro h0
          have h2 := h.fullInv old j homem hsi
          rw [h0, hA] at h2
          exact hosid (Option.some.inj h2).symm
        rw [mapErase_ne _ _ _ (fun h0 => hjc h0.symm)]
        exact hA

theorem disconnect_rooms_not_mem (st : ChatState) (s : String) (hG : Good st) :
    ∀ r ms, (disconnect st s).1.rooms r = some ms → s ∉ ms := by
  intro r ms hms
  rw [disconnect_fst_rooms] at hms
  cases hr : st.rooms r with
  | none =>
      simp only [removeFromRooms, hr] at hms
      exact absurd hms (by simp)
  | some ms0 =>
      simp only [removeFromRooms, hr] at hms
      by_cases h0 : ms0.erase s = []
      · rw [if_pos h0] at hms
        exact absurd hms (by simp)
      · rw [if_neg h0] at hms
        have hs : ms0.erase s = ms := Option.some.inj hms
        subst hs
        exact (hG.roomsNodup r ms0 hr).not_mem_erase

theorem disconnect_snd (st : ChatState) (s : String) :
    (disconnect st s).2 = st.clients.map (fun t =>
      (t, Out.usersCount
        (if s ∈ st.clients then st.clients.erase s else st.clients).length)) := rfl

theorem register_snd_of_valid (st : ChatState) (sid : String) (d : RegisterData)
    (hv : validB d = true) :
    (register st sid d).2 = (evict st sid (strip d.character_id)).2 := by
  simp [register, hv]

theorem register_valid_no_error (st : ChatState) (sid : String)
    (d : RegisterData) (hv : validB d = true) :
    ∀ p ∈ (register st sid d).2, p.2 ≠ Out.registerError := by
  rw [register_snd_of_valid st sid d hv]
  cases h : st.character_to_sid (strip d.character_id) with
  | none =>
      rw [evict_eq_of_none st sid (strip d.character_id) h]
      intro p hp
      exact absurd hp (List.not_mem_nil p)
  | some old =>
      by_cases h2 : old ≠ "" ∧ old ≠ sid
      · by_cases h3 : old ∈ st.clients
        · rw [evict_eq_of_live st sid (strip d.character_id) old h h2 h3]
          intro p hp
          rw [disconnect_snd] at hp
          obtain ⟨t, _, hpt⟩ := List.mem_map.mp hp
          rw [← hpt]
          simp
        · rw [evict_eq_of_dead st sid (strip d.character_id) old h h2 h3]
          intro p hp
          exact absurd hp (List.not_mem_nil p)
      · rw [evict_eq_of_skip st sid (strip d.character_id) old h h2]
        intro p hp
        exact absurd hp (List.not_mem_nil p)

end Chat

/-- C2: for two distinct live sessions A and B, registering a character_id on
A and then registering a payload with the same trimmed character_id on B
forcibly disconnects A before B's mapping is installed: afterwards the
IdentityIndex maps the character_id to B, A is no longer live, and A's
identity entry is gone. -/
theorem c2_register_evicts_prior_session (st : Chat.ChatState) (A B : String)
    (dA dB : Chat.RegisterData) (hnd : st.clients.Nodup)
    (hA : A ∈ st.clients) (_hB : B ∈ st.clients) (hAB : A ≠ B) (hA0 : A ≠ "")
    (hvA : Chat.validB dA = true) (hvB : Chat.validB dB = true)
    (hc : Chat.strip dA.character_id = Chat.strip dB.character_id) :
    (Chat.register (Chat.register st A dA).1 B dB).1.character_to_sid
        (Chat.strip dB.character_id) = some B ∧
    A ∉ (Chat.register (Chat.register st A dA).1 B dB).1.clients ∧
    (Chat.register (Chat.register st A dA).1 B dB).1.sid_to_identity A = none := by
  have hidx1 : (Chat.register st A dA).1.character_to_sid
      (Chat.strip dB.character_id) = some A := by
    rw [← hc]
    exact Chat.register_index_self st A dA hvA
  have hA1 : A ∈ (Chat.register st A dA).1.clients :=
    Chat.register_mem_clients st A dA hA
  have hnd1 : (Chat.register st A dA).1.clients.Nodup :=
    Chat.register_clients_nodup st A dA hnd
  have hev : (Chat.evict (Chat.register st A dA).1 B
        (Chat.strip dB.character_id)).1 =
      (Chat.disconnect (Chat.register st A dA).1 A).1 := by
    rw [Chat.evict_eq_of_live _ B _ A hidx1 ⟨hA0, hAB⟩ hA1]
  refine ⟨Chat.register_index_self _ B dB hvB, ?_, ?_⟩
  · rw [Chat.register_clients _ B dB hvB, hev]
    exact Chat.disconnect_not_mem_clients _ A hnd1
  · rw [Chat.register_identity_other _ B dB hvB A hAB, hev,
      Chat.disconnect_fst_identity, Chat.mapErase_self]

theorem c2_witness :
    (Chat.register
        (Chat.register
          (Chat.step (Chat.step Chat.initState (Chat.Event.connect "a"))
            (Chat.Event.connect "b"))
          "a" ⟨some "p", some "c1", some "nA"⟩).1
        "b" ⟨some "q", some "c1", some "nB"⟩).1.character_to_sid
      (Chat.strip (⟨some "q", some "c1", some "nB"⟩ :
        Chat.RegisterData).character_id) = some "b" ∧
    "a" ∉ (Chat.register
        (Chat.register
          (Chat.step (Chat.step Chat.initState (Chat.Event.connect "a"))
            (Chat.Event.connect "b"))
          "a" ⟨some "p", some "c1", some "nA"⟩).1
        "b" ⟨some "q", some "c1", some "nB"⟩).1.clients ∧
    (Chat.register
        (Chat.register
          (Chat.step (Chat.step Chat.initState (Chat.Event.connect "a"))
            (Chat.Event.connect "b"))
          "a" ⟨some "p", some "c1", some "nA"⟩).1
        "b" ⟨some "q", some "c1", some "nB"⟩).1.sid_to_identity "a" = none :=
  c2_register_evicts_prior_session
    (Chat.step (Chat.step Chat.initState (Chat.Event.connect "a"))
      (Chat.Event.connect "b"))
    "a" "b" ⟨some "p", some "c1", some "nA"⟩ ⟨some "q", some "c1", some "nB"⟩
    (by decide) (by decide) (by decide) (by decide) (by decide) (by decide)
    (by decide) (by decide)

/-- C5 (code bug): `leave_local` never removes the session from its room —
the handler body reads the unbound name `room`, so every invocation raises
`NameError` before touching any state, and the event leaves the whole chat
state (including `user_rooms` and the room member lists) unchanged. -/
theorem c5_leave_local_always_raises (st : Chat.ChatState) (sid msg : String) :
    Chat.leave_local st sid msg =
      Except.error "NameError: name room is not defined" ∧
    Chat.step st (Chat.Event.leaveLocal sid msg) = st :=
  ⟨rfl, rfl⟩

/-- C7: a `localmsg` from a sender with no current room in `user_rooms` is a
silent no-op — no deliveries to anyone and no error to the sender — and
otherwise the message is multicast to the member list of the sender's
current room. -/
theorem c7_localmsg_no_room_silent (st : Chat.ChatState) (sid m : String) :
    (st.user_rooms sid = none → Chat.localmsg st sid m = (st, [])) ∧
    (∀ room, st.user_rooms sid = some room →
      Chat.localmsg st sid m =
        (st, (Chat.membersOf st room).map
          (fun u => (u, Chat.Out.localMsg (Chat.make_sender_payload st sid) m)))) := by
  constructor
  · intro h
    exact Chat.localmsg_none st sid m h
  · intro room h
    rw [Chat.localmsg_some st sid m room h]
    rfl

theorem c7_witness :
    Chat.localmsg (Chat.step Chat.initState (Chat.Event.connect "a")) "a" "hi" =
      (Chat.step Chat.initState (Chat.Event.connect "a"), []) :=
  (c7_localmsg_no_room_silent
    (Chat.step Chat.initState (Chat.Event.connect "a")) "a" "hi").1 (by decide)

/-- C1 (counterexample): the claimed invariant fails on the code.  The
reachable sequence connect "a"; register "a" as "c1"; register "a" as "c2";
disconnect "a" leaves the IdentityIndex entry "c1" -> "a" in place although
"a" is no longer live: `register` never removes the old entry when a session
re-registers under a different character_id, and `disconnect` only removes
the entry of the current character_id. -/
theorem c1_counterexample :
    Chat.Reach (Chat.step (Chat.step (Chat.step (Chat.step Chat.initState
        (Chat.Event.connect "a"))
        (Chat.Event.register "a" ⟨some "p", some "c1", some "n"⟩))
        (Chat.Event.register "a" ⟨some "p", some "c2", some "n"⟩))
        (Chat.Event.disconnectEv "a")) ∧
    (Chat.step (Chat.step (Chat.step (Chat.step Chat.initState
        (Chat.Event.connect "a"))
        (Chat.Event.register "a" ⟨some "p", some "c1", some "n"⟩))
        (Chat.Event.register "a" ⟨some "p", some "c2", some "n"⟩))
        (Chat.Event.disconnectEv "a")).character_to_sid "c1" = some "a" ∧
    "a" ∉ (Chat.step (Chat.step (Chat.step (Chat.step Chat.initState
        (Chat.Event.connect "a"))
        (Chat.Event.register "a" ⟨some "p", some "c1", some "n"⟩))
        (Chat.Event.register "a" ⟨some "p", some "c2", some "n"⟩))
        (Chat.Event.disconnectEv "a")).clients :=
  ⟨Chat.Reach.next _ _ (Chat.Reach.next _ _ (Chat.Reach.next _ _
      (Chat.Reach.next _ _ Chat.Reach.init (by decide)) (by decide))
      (by decide)) (by decide),
    by decide, by decide⟩

/-- C1 (amended): every IdentityIndex entry names a currently-live Session in
every state reachable by event sequences in which no session ever
(successfully) re-registers under a character_id different from its current
one; without that restriction, a re-registration under a new character_id
leaves a stale entry that survives the session's disconnect. -/
theorem c1_identity_index_live_restricted (st : Chat.ChatState)
    (h : Chat.ReachS st) :
    ∀ c r, st.character_to_sid c = some r → r ∈ st.clients :=
  fun c r hc => (Chat.reachS_idxok st h c r hc).1

theorem c1_witness :
    "a" ∈ (Chat.step (Chat.step Chat.initState (Chat.Event.connect "a"))
      (Chat.Event.register "a" ⟨some "p", some "c1", some "n"⟩)).clients :=
  c1_identity_index_live_restricted _
    (Chat.ReachS.next _ _ (Chat.ReachS.next _ _ Chat.ReachS.init (by decide)
      (by decide)) (by decide) (by decide))
    "c1" "a" (by decide)

/-- C3 (counterexample): disconnect does not cascade all cleanup.  After the
reachable sequence connect "a"; enter_local "a" "r1"; register "a" as "c1";
register "a" as "c2"; disconnect "a", the disconnected session still has its
`user_rooms` entry (residual Room membership for the router) and a stale
IdentityIndex entry "c1" -> "a". -/
theorem c3_counterexample :
    Chat.Reach (Chat.step (Chat.step (Chat.step (Chat.step (Chat.step
        Chat.initState (Chat.Event.connect "a"))
        (Chat.Event.enterLocal "a" "r1"))
        (Chat.Event.register "a" ⟨some "p", some "c1", some "n"⟩))
        (Chat.Event.register "a" ⟨some "p", some "c2", some "n"⟩))
        (Chat.Event.disconnectEv "a")) ∧
    (Chat.step (Chat.step (Chat.step (Chat.step (Chat.step
        Chat.initState (Chat.Event.connect "a"))
        (Chat.Event.enterLocal "a" "r1"))
        (Chat.Event.register "a" ⟨some "p", some "c1", some "n"⟩))
        (Chat.Event.register "a" ⟨some "p", some "c2", some "n"⟩))
        (Chat.Event.disconnectEv "a")).user_rooms "a" = some "r1" ∧
    (Chat.step (Chat.step (Chat.step (Chat.step (Chat.step
        Chat.initState (Chat.Event.connect "a"))
        (Chat.Event.enterLocal "a" "r1"))
        (Chat.Event.register "a" ⟨some "p", some "c1", some "n"⟩))
        (Chat.Event.register "a" ⟨some "p", some "c2", some "n"⟩))
        (Chat.Event.disconnectEv "a")).character_to_sid "c1" = some "a" ∧
    "a" ∉ (Chat.step (Chat.step (Chat.step (Chat.step (Chat.step
        Chat.initState (Chat.Event.connect "a"))
        (Chat.Event.enterLocal "a" "r1"))
        (Chat.Event.register "a" ⟨some "p", some "c1", some "n"⟩))
        (Chat.Event.register "a" ⟨some "p", some "c2", some "n"⟩))
        (Chat.Event.disconnectEv "a")).clients :=
  ⟨Chat.Reach.next _ _ (Chat.Reach.next _ _ (Chat.Reach.next _ _
      (Chat.Reach.next _ _ (Chat.Reach.next _ _ Chat.Reach.init (by decide))
      (by decide)) (by decide)) (by decide)) (by decide),
    by decide, by decide, by decide⟩

/-- C3 (amended): on a reachable chat state, `Disconnect(s)` removes the
session from the live set, removes its identity, removes the IdentityIndex
entry for its current character_id, and removes it from every transport-level
room member list; the master server's disconnect removes every ServerRecord
owned by the sid.  (It does not clear the session's `user_rooms` entry, and
stale IdentityIndex entries from earlier re-registrations survive.) -/
theorem c3_disconnect_cleanup_amended (st : Chat.ChatState)
    (hre : Chat.Reach st) (sid : String) (g : Master.MState)
    (hg : Master.MReach g) :
    (Chat.disconnect st sid).1.sid_to_identity sid = none ∧
    sid ∉ (Chat.disconnect st sid).1.clients ∧
    (∀ i, st.sid_to_identity sid = some i →
      (Chat.disconnect st sid).1.character_to_sid i.character_id = none) ∧
    (∀ r ms, (Chat.disconnect st sid).1.rooms r = some ms → sid ∉ ms) ∧
    (∀ p ∈ Master.disconnect g sid, p.2.sid ≠ sid) := by
  have hG := Chat.reach_good st hre
  obtain ⟨hown, hnd⟩ := Master.mreach_good g hg
  refine ⟨?_, ?_, ?_, ?_, ?_⟩
  · rw [Chat.disconnect_fst_identity, Chat.mapErase_self]
  · exact Chat.disconnect_not_mem_clients st sid hG.nodup
  · intro i hi
    rw [Chat.disconnect_fst_index_some st sid i hi, Chat.mapErase_self]
  · exact Chat.disconnect_rooms_not_mem st sid hG
  · exact Master.disconnect_no_owner sid g hown hnd

theorem c3_witness :
    (Chat.disconnect (Chat.step Chat.initState (Chat.Event.connect "a"))
        "a").1.sid_to_identity "a" = none ∧
    "a" ∉ (Chat.disconnect (Chat.step Chat.initState (Chat.Event.connect "a"))
        "a").1.clients :=
  ⟨(c3_disconnect_cleanup_amended
      (Chat.step Chat.initState (Chat.Event.connect "a"))
      (Chat.Reach.next _ _ Chat.Reach.init (by decide)) "a" []
      Master.MReach.init).1,
    (c3_disconnect_cleanup_amended
      (Chat.step Chat.initState (Chat.Event.connect "a"))
      (Chat.Reach.next _ _ Chat.Reach.init (by decide)) "a" []
      Master.MReach.init).2.1⟩

/-- C4 (counterexample): joining a new room does not leave the previous one
at the transport level.  After the reachable sequence connect "a";
enter_local "a" "r1"; enter_local "a" "r2"; connect "b"; enter_local "b"
"r1", the session "a" (whose current room in `user_rooms` is "r2") is still
in the member list of "r1" and still receives a `localmsg` multicast sent to
"r1" by "b". -/
theorem c4_counterexample :
    Chat.Reach (Chat.step (Chat.step (Chat.step (Chat.step (Chat.step
        Chat.initState (Chat.Event.connect "a"))
        (Chat.Event.enterLocal "a" "r1"))
        (Chat.Event.enterLocal "a" "r2"))
        (Chat.Event.connect "b"))
        (Chat.Event.enterLocal "b" "r1")) ∧
    (Chat.step (Chat.step (Chat.step (Chat.step (Chat.step
        Chat.initState (Chat.Event.connect "a"))
        (Chat.Event.enterLocal "a" "r1"))
        (Chat.Event.enterLocal "a" "r2"))
        (Chat.Event.connect "b"))
        (Chat.Event.enterLocal "b" "r1")).user_rooms "a" = some "r2" ∧
    "a" ∈ Chat.membersOf (Chat.step (Chat.step (Chat.step (Chat.step (Chat.step
        Chat.initState (Chat.Event.connect "a"))
        (Chat.Event.enterLocal "a" "r1"))
        (Chat.Event.enterLocal "a" "r2"))
        (Chat.Event.connect "b"))
        (Chat.Event.enterLocal "b" "r1")) "r1" ∧
    ("a", Chat.Out.localMsg ⟨"", "", "Unknown"⟩ "hi") ∈
      (Chat.localmsg (Chat.step (Chat.step (Chat.step (Chat.step (Chat.step
        Chat.initState (Chat.Event.connect "a"))
        (Chat.Event.enterLocal "a" "r1"))
        (Chat.Event.enterLocal "a" "r2"))
        (Chat.Event.connect "b"))
        (Chat.Event.enterLocal "b" "r1")) "b" "hi").2 :=
  ⟨Chat.Reach.next _ _ (Chat.Reach.next _ _ (Chat.Reach.next _ _
      (Chat.Reach.next _ _ (Chat.Reach.next _ _ Chat.Reach.init (by decide))
      (by decide)) (by decide)) (by decide)) (by decide),
    by decide, by decide, by decide⟩

/-- C4 (amended): `Join(s, r1)` then `Join(s, r2)` (with r1 ≠ r2) updates the
`user_rooms` current-room pointer to r2 — the session's own Local messages
now go to r2 — and adds s to r2's member list, but s also remains in r1's
member list: `enter_local` never leaves the previous socket.io room, so a
session can be in several room member lists at once. -/
theorem c4_join_switches_current_room (st : Chat.ChatState) (s r1 r2 : String)
    (h : r1 ≠ r2) :
    (Chat.enter_local (Chat.enter_local st s r1).1 s r2).1.user_rooms s
        = some r2 ∧
    s ∈ Chat.membersOf (Chat.enter_local (Chat.enter_local st s r1).1 s r2).1 r2 ∧
    s ∈ Chat.membersOf (Chat.enter_local (Chat.enter_local st s r1).1 s r2).1 r1 := by
  refine ⟨?_, ?_, ?_⟩
  · show Chat.mapInsert (Chat.mapInsert st.user_rooms s r1) s r2 s = some r2
    rw [Chat.mapInsert_self]
  · obtain ⟨ms, hms, hsm, _, _⟩ :=
      Chat.addMember_at (Chat.addMember st.rooms r1 s) r2 s
    show s ∈ ((Chat.enter_local (Chat.enter_local st s r1).1 s r2).1.rooms
      r2).getD []
    rw [show (Chat.enter_local (Chat.enter_local st s r1).1 s r2).1.rooms r2
      = some ms from hms]
    exact hsm
  · obtain ⟨ms, hms, hsm, _, _⟩ := Chat.addMember_at st.rooms r1 s
    have h2 : (Chat.enter_local (Chat.enter_local st s r1).1 s r2).1.rooms r1
        = some ms := by
      show Chat.addMember (Chat.addMember st.rooms r1 s) r2 s r1 = some ms
      rw [Chat.addMember_other _ _ _ _ h]
      exact hms
    show s ∈ ((Chat.enter_local (Chat.enter_local st s r1).1 s r2).1.rooms
      r1).getD []
    rw [h2]
    exact hsm

theorem c4_witness :
    (Chat.enter_local (Chat.enter_local Chat.initState "a" "r1").1 "a"
        "r2").1.user_rooms "a" = some "r2" ∧
    "a" ∈ Chat.membersOf
      (Chat.enter_local (Chat.enter_local Chat.initState "a" "r1").1 "a"
        "r2").1 "r2" ∧
    "a" ∈ Chat.membersOf
      (Chat.enter_local (Chat.enter_local Chat.initState "a" "r1").1 "a"
        "r2").1 "r1" :=
  c4_join_switches_current_room Chat.initState "a" "r1" "r2" (by decide)

/-- C6 (counterexample): private delivery is not "to that Session only".
The handler emits to the socket.io room named by the receiver's sid, so in
the reachable state where "b" has joined a room literally named "x" (the sid
of the live session holding character_id "c1"), a private message from "s"
to "c1" is also delivered to "b". -/
theorem c6_counterexample :
    Chat.Reach (Chat.step (Chat.step (Chat.step (Chat.step (Chat.step
        Chat.initState (Chat.Event.connect "x"))
        (Chat.Event.register "x" ⟨some "p", some "c1", some "N"⟩))
        (Chat.Event.connect "b"))
        (Chat.Event.enterLocal "b" "x"))
        (Chat.Event.connect "s")) ∧
    (Chat.step (Chat.step (Chat.step (Chat.step (Chat.step
        Chat.initState (Chat.Event.connect "x"))
        (Chat.Event.register "x" ⟨some "p", some "c1", some "N"⟩))
        (Chat.Event.connect "b"))
        (Chat.Event.enterLocal "b" "x"))
        (Chat.Event.connect "s")).character_to_sid "c1" = some "x" ∧
    "x" ∈ (Chat.step (Chat.step (Chat.step (Chat.step (Chat.step
        Chat.initState (Chat.Event.connect "x"))
        (Chat.Event.register "x" ⟨some "p", some "c1", some "N"⟩))
        (Chat.Event.connect "b"))
        (Chat.Event.enterLocal "b" "x"))
        (Chat.Event.connect "s")).clients ∧
    ("b", Chat.Out.privMsg ⟨"", "", "Unknown"⟩ "c1" "hi" none) ∈
      (Chat.privatemsg (Chat.step (Chat.step (Chat.step (Chat.step (Chat.step
        Chat.initState (Chat.Event.connect "x"))
        (Chat.Event.register "x" ⟨some "p", some "c1", some "N"⟩))
        (Chat.Event.connect "b"))
        (Chat.Event.enterLocal "b" "x"))
        (Chat.Event.connect "s")) "s" (some "c1") "hi").2 ∧
    "b" ≠ "x" :=
  ⟨Chat.Reach.next _ _ (Chat.Reach.next _ _ (Chat.Reach.next _ _
      (Chat.Reach.next _ _ (Chat.Reach.next _ _ Chat.Reach.init (by decide))
      (by decide)) (by decide)) (by decide)) (by decide),
    by decide, by decide, by decide, by decide⟩

/-- C6 (amended): `privatemsg` changes no state; delivery is emitted to the
socket.io room named by the resolved sid and errors to the room named by the
sender's sid, and the "live" test is existence of a room with the receiver's
sid as its name.  Provided the sender's sid-room contains only the sender
and the resolved sid's room contains only the receiver (no room-name
collisions), the claim holds: a resolved live target gets exactly one
message and nobody else gets anything, and an unresolved target (or one
whose sid-room is gone) produces exactly one `recipient_not_online` error
payload to the sender only. -/
theorem c6_private_delivery_amended (st : Chat.ChatState) (x : String)
    (toC : Option String) (m : String) (hx : st.rooms x = some [x]) :
    (Chat.privatemsg st x toC m).1 = st ∧
    (∀ r, st.character_to_sid (Chat.pyStrip (toC.getD "")) = some r → r ≠ "" →
      st.rooms r = some [r] →
      (Chat.privatemsg st x toC m).2 =
        [(r, Chat.Out.privMsg (Chat.make_sender_payload st x)
          (Chat.pyStrip (toC.getD "")) m none)]) ∧
    (∀ r, st.character_to_sid (Chat.pyStrip (toC.getD "")) = some r →
      st.rooms r = none →
      (Chat.privatemsg st x toC m).2 =
        [(x, Chat.Out.privMsg (Chat.make_sender_payload st x)
          (Chat.pyStrip (toC.getD "")) m (some "recipient_not_online"))]) ∧
    (st.character_to_sid (Chat.pyStrip (toC.getD "")) = none →
      (Chat.privatemsg st x toC m).2 =
        [(x, Chat.Out.privMsg (Chat.make_sender_payload st x)
          (Chat.pyStrip (toC.getD "")) m (some "recipient_not_online"))]) := by
  refine ⟨Chat.privatemsg_fst st x toC m, ?_, ?_, ?_⟩
  · intro r hidx hr hroom
    rw [Chat.privatemsg_deliver st x toC m r hidx hr (by rw [hroom]; rfl)]
    show Chat.emitToRoom st r _ = _
    rw [Chat.emitToRoom_eq st r [r] _ hroom]
    rfl
  · intro r hidx hroom
    rw [Chat.privatemsg_error_dead st x toC m r hidx
      (by intro hcon; rw [hroom] at hcon; exact Bool.noConfusion hcon.2)]
    show Chat.emitToRoom st x _ = _
    rw [Chat.emitToRoom_eq st x [x] _ hx]
    rfl
  · intro hidx
    rw [Chat.privatemsg_error_unresolved st x toC m hidx]
    show Chat.emitToRoom st x _ = _
    rw [Chat.emitToRoom_eq st x [x] _ hx]
    rfl

theorem c6_witness :
    (Chat.privatemsg (Chat.step Chat.initState (Chat.Event.connect "s")) "s"
        (some "nobody") "hi").2 =
      [("s", Chat.Out.privMsg (Chat.make_sender_payload
        (Chat.step Chat.initState (Chat.Event.connect "s")) "s")
        (Chat.pyStrip ((some "nobody").getD "")) "hi"
        (some "recipient_not_online"))] :=
  (c6_private_delivery_amended
    (Chat.step Chat.initState (Chat.Event.connect "s")) "s" (some "nobody")
    "hi" (by decide)).2.2.2 (by decide)

/-- C8 (counterexample): the validation error is not delivered "to the
offending sender only".  The error payload is emitted to the socket.io room
named by the sender's sid, so in the reachable state where "b" has joined a
room literally named "a", the session "b" also receives the validation-error
payload produced by "a"'s invalid register. -/
theorem c8_counterexample :
    Chat.Reach (Chat.step (Chat.step (Chat.step Chat.initState
        (Chat.Event.connect "a"))
        (Chat.Event.connect "b"))
        (Chat.Event.enterLocal "b" "a")) ∧
    Chat.validB ⟨some "", some "c", some "n"⟩ = false ∧
    ("b", Chat.Out.registerError) ∈
      (Chat.register (Chat.step (Chat.step (Chat.step Chat.initState
        (Chat.Event.connect "a"))
        (Chat.Event.connect "b"))
        (Chat.Event.enterLocal "b" "a")) "a"
        ⟨some "", some "c", some "n"⟩).2 ∧
    "b" ≠ "a" :=
  ⟨Chat.Reach.next _ _ (Chat.Reach.next _ _ (Chat.Reach.next _ _
      Chat.Reach.init (by decide)) (by decide)) (by decide),
    by decide, by decide, by decide⟩

/-- C8 (amended): registration fails exactly when one of the three fields is
empty after trimming.  On failure the state is unchanged (so the connection
stays open and no registry entry moves) and the error payload is emitted to
the socket.io room named by the sender's sid — the sender alone, provided no
other session has joined a room by that name; a valid registration never
produces the validation-error payload. -/
theorem c8_register_validation_amended (st : Chat.ChatState) (sid : String)
    (d : Chat.RegisterData) (hroom : st.rooms sid = some [sid]) :
    (Chat.validB d = false ↔
      (Chat.strip d.player_id = "" ∨ Chat.strip d.character_id = "" ∨
        Chat.strip d.character_name = "")) ∧
    (Chat.validB d = false →
      Chat.register st sid d = (st, [(sid, Chat.Out.registerError)])) ∧
    (Chat.validB d = true →
      ∀ p ∈ (Chat.register st sid d).2, p.2 ≠ Chat.Out.registerError) := by
  refine ⟨?_, ?_, ?_⟩
  · rw [show (Chat.validB d = false) ↔ ¬(Chat.validB d = true) from by simp]
    rw [show (Chat.validB d = true) ↔
        (Chat.strip d.player_id ≠ "" ∧ Chat.strip d.character_id ≠ "" ∧
          Chat.strip d.character_name ≠ "") from by
      simp [Chat.validB, Bool.and_eq_true, and_assoc]]
    tauto
  · intro h
    rw [Chat.register_of_invalid st sid d h]
    rw [show Chat.emitToRoom st sid Chat.Out.registerError =
      [(sid, Chat.Out.registerError)] from by
        rw [Chat.emitToRoom_eq st sid [sid] _ hroom]
        rfl]
  · intro h
    exact Chat.register_valid_no_error st sid d h

theorem c8_witness :
    Chat.register (Chat.step Chat.initState (Chat.Event.connect "a")) "a"
        ⟨some "", some "c", some "n"⟩ =
      (Chat.step Chat.initState (Chat.Event.connect "a"),
        [("a", Chat.Out.registerError)]) :=
  (c8_register_validation_amended
    (Chat.step Chat.initState (Chat.Event.connect "a")) "a"
    ⟨some "", some "c", some "n"⟩ (by decide)).2.1 (by decide)

/-- C9: `register_server` stores the descriptor keyed by the owning sid with
`current_players` defaulting to 0 when the field is absent; and after
registering S with current_players 3 / max_players 10 and then updating S's
player count to 10, the free-slot filter of `get_servers` excludes S from
the returned list. -/
theorem c9_register_default_and_capacity_filter (g : Master.MState)
    (hg : Master.MReach g) (sid caller : String) (d dS : Master.RegisterData)
    (hcur : dS.current_players = some 3) (hmax : dS.max_players = some 10)
    (l : List Master.ServerEntry)
    (hok : Master.availableServers
        (Master.update_server (Master.register_server g sid dS) caller
          ⟨some sid, some 10⟩) = Except.ok l) :
    Master.lookupA (Master.register_server g sid d) sid =
      some ⟨d.server_name, d.ip, d.port, d.mapname,
        some (d.current_players.getD 0), d.max_players, sid⟩ ∧
    ∀ e ∈ l, e.server_id ≠ sid := by
  constructor
  · exact Master.lookupA_insertA_self g sid _
  · intro e he h0
    obtain ⟨_, hnd⟩ := Master.mreach_good g hg
    have hnd1 : (Master.keys (Master.register_server g sid dS)).Nodup :=
      Master.keys_nodup_insertA g sid _ hnd
    have hrec1 : Master.lookupA (Master.register_server g sid dS) sid =
        some ⟨dS.server_name, dS.ip, dS.port, dS.mapname, some 3, some 10,
          sid⟩ := by
      rw [show (⟨dS.server_name, dS.ip, dS.port, dS.mapname, some 3, some 10,
          sid⟩ : Master.ServerRecord) =
        ⟨dS.server_name, dS.ip, dS.port, dS.mapname,
          some (dS.current_players.getD 0), dS.max_players, sid⟩ from by
        rw [hcur, hmax]
        rfl]
      exact Master.lookupA_insertA_self g sid _
    have hsome1 : (Master.lookupA (Master.register_server g sid dS)
        sid).isSome = true := by
      rw [hrec1]
      rfl
    have hupd := Master.update_server_eq_of_some
      (Master.register_server g sid dS) caller sid ⟨some sid, some 10⟩ rfl
      hsome1
    have hrec2 : Master.lookupA (Master.update_server
        (Master.register_server g sid dS) caller ⟨some sid, some 10⟩) sid =
        some ⟨dS.server_name, dS.ip, dS.port, dS.mapname, some 10, some 10,
          sid⟩ := by
      rw [hupd, Master.lookupA_map_upd, hrec1]
      rfl
    have hnd2 : (Master.keys (Master.update_server
        (Master.register_server g sid dS) caller
        ⟨some sid, some 10⟩)).Nodup := by
      rw [hupd, Master.keys_map_upd]
      exact hnd1
    obtain ⟨r, hrmem, hlt⟩ := Master.availableServers_mem _ l hok e he
    rw [h0] at hrmem
    have hlook := Master.lookupA_eq_of_mem _ sid r hnd2 hrmem
    rw [hrec2] at hlook
    have hrr := Option.some.inj hlook
    rw [← hrr] at hlt
    simp [Master.ltOpt] at hlt

theorem c9_witness :
    Master.lookupA (Master.register_server [] "S"
        ⟨some "name", some "ip", some 7777, some "map", none, some 5⟩) "S" =
      some ⟨some "name", some "ip", some 7777, some "map", some 0, some 5,
        "S"⟩ :=
  (c9_register_default_and_capacity_filter [] Master.MReach.init "S" "caller"
    ⟨some "name", some "ip", some 7777, some "map", none, some 5⟩
    ⟨some "n2", some "ip2", some 7778, some "m2", some 3, some 10⟩
    rfl rfl [] rfl).1

/-- C10 (implicit): a live session that registers character_id c1 and then
successfully re-registers a different character_id c2 leaves the stale
IdentityIndex entry c1 -> s in place alongside the new c2 entry, and a
subsequent private message addressed to c1 from any sender is still
delivered to s (every emitted payload is the ordinary message, never a
`recipient_not_online` error). -/
theorem c10_stale_entry_private_delivery (st : Chat.ChatState)
    (hre : Chat.Reach st) (A x : String) (hA : A ∈ st.clients)
    (_hx : x ∈ st.clients) (d1 d2 : Chat.RegisterData)
    (hv1 : Chat.validB d1 = true) (hv2 : Chat.validB d2 = true)
    (hne : Chat.strip d1.character_id ≠ Chat.strip d2.character_id)
    (t : Option String)
    (ht : Chat.pyStrip (t.getD "") = Chat.strip d1.character_id)
    (m : String) :
    let st2 := (Chat.register (Chat.register st A d1).1 A d2).1
    st2.character_to_sid (Chat.strip d1.character_id) = some A ∧
    st2.character_to_sid (Chat.strip d2.character_id) = some A ∧
    (A, Chat.Out.privMsg (Chat.make_sender_payload st2 x)
        (Chat.pyStrip (t.getD "")) m none) ∈ (Chat.privatemsg st2 x t m).2 ∧
    (∀ p ∈ (Chat.privatemsg st2 x t m).2,
      p.2 = Chat.Out.privMsg (Chat.make_sender_payload st2 x)
        (Chat.pyStrip (t.getD "")) m none) := by
  intro st2
  have hG : Chat.Good st := Chat.reach_good st hre
  have hG1 : Chat.Good (Chat.register st A d1).1 :=
    Chat.good_register st A d1 hG hA
  have hA1 : A ∈ (Chat.register st A d1).1.clients :=
    Chat.register_mem_clients st A d1 hA
  have hG2 : Chat.Good st2 := Chat.good_register _ A d2 hG1 hA1
  have hA2 : A ∈ st2.clients := Chat.register_mem_clients _ A d2 hA1
  have hidx1 : (Chat.register st A d1).1.character_to_sid
      (Chat.strip d1.character_id) = some A :=
    Chat.register_index_self st A d1 hv1
  have hidx2 : st2.character_to_sid (Chat.strip d1.character_id) = some A := by
    rw [Chat.register_index_other _ A d2 hv2 _ hne]
    exact Chat.evict_index_preserved _ A (Chat.strip d2.character_id)
      (Chat.strip d1.character_id) hG1 hidx1
  have hidx2' : st2.character_to_sid (Chat.strip d2.character_id) = some A :=
    Chat.register_index_self _ A d2 hv2
  have hA0 : A ≠ "" := hG2.ne A hA2
  obtain ⟨ms, hms, hAm⟩ := hG2.personal A hA2
  have hdel := Chat.privatemsg_deliver st2 x t m A (by rw [ht]; exact hidx2)
    hA0 (by rw [hms]; rfl)
  refine ⟨hidx2, hidx2', ?_, ?_⟩
  · rw [hdel]
    show (A, _) ∈ Chat.emitToRoom st2 A _
    rw [Chat.emitToRoom_eq st2 A ms _ hms]
    exact List.mem_map.mpr ⟨A, hAm, rfl⟩
  · intro p hp
    rw [hdel] at hp
    have hp2 : p ∈ Chat.emitToRoom st2 A (Chat.Out.privMsg
        (Chat.make_sender_payload st2 x) (Chat.pyStrip (t.getD "")) m none) :=
      hp
    rw [Chat.emitToRoom_eq st2 A ms _ hms] at hp2
    obtain ⟨u, _, hup⟩ := List.mem_map.mp hp2
    subst hup
    rfl

theorem c10_witness :
    ("a", Chat.Out.privMsg (Chat.make_sender_payload
        (Chat.register (Chat.register (Chat.step (Chat.step Chat.initState
          (Chat.Event.connect "a")) (Chat.Event.connect "x")) "a"
          ⟨some "p", some "c1", some "n"⟩).1 "a"
          ⟨some "p", some "c2", some "n"⟩).1 "x")
        (Chat.pyStrip ((some "c1").getD "")) "hi" none) ∈
      (Chat.privatemsg (Chat.register (Chat.register (Chat.step (Chat.step
        Chat.initState (Chat.Event.connect "a")) (Chat.Event.connect "x")) "a"
        ⟨some "p", some "c1", some "n"⟩).1 "a"
        ⟨some "p", some "c2", some "n"⟩).1 "x" (some "c1") "hi").2 :=
  (c10_stale_entry_private_delivery _
    (Chat.Reach.next _ _ (Chat.Reach.next _ _ Chat.Reach.init (by decide))
      (by decide))
    "a" "x" (by decide) (by decide) ⟨some "p", some "c1", some "n"⟩
    ⟨some "p", some "c2", some "n"⟩ (by decide) (by decide) (by decide)
    (some "c1") (by decide) "hi").2.2.1
